import Mathlib

/-!
Verification development for the simpledb-rs storage core.

Shallow embedding of the Rust sources under `src/`:
* `filemanager.rs` — `BlockId`, `Page` and its typed accessors;
* `logmanager.rs` — `LogManager` (tail page, `latest_lsn`/`last_lsn`),
  `LogManagerBuilder::build`, `LogManager::append`, `LogIterator::next`;
* `buffermanager.rs` — `Buffer`, `Buffer::flush`, `BufferManager`
  (`pin`/`try_pin`/`unpin`/`available_buffers`/`flush_all_buffers`);
* `recoverymanager.rs` — `RecoveryManager::{commit, do_rollback, do_recover}`;
* `logrecord.rs` — log-record encoders (`write_to_log_record`) and decoders.

Rust partiality is made explicit: a function that can panic is modelled with
`Option` (`none` = panic) or with `PageRes` (`PageRes.panicked`); a Rust
`Option` return is `PageRes.nf` / `Option` in the value position.  Machine
integers are modelled as `Int`/`Nat` with explicit `% 2 ^ w` at the points
where the source casts (`as usize`) or serialises (`to_be_bytes`).
-/

namespace SimpleDB

/-- Result of a Rust call that returns `Option<T>` but may also panic:
`val` = `Some`, `nf` = `None` ("not found"), `panicked` = the call panics. -/
inductive PageRes (α : Type) where
  | val : α → PageRes α
  | nf : PageRes α
  | panicked : PageRes α
deriving DecidableEq, Repr

/-- `BlockId` from `filemanager.rs`: a file name and a block number.
Equality is field-wise (the source's `PartialEq` impl). -/
structure BlockId where
  file_name : String
  block_num : Nat
deriving DecidableEq, Repr

/-- Big-endian interpretation of four bytes as a signed 32-bit integer
(`i32::from_be_bytes`). -/
def i32_from_be (bytes : List Nat) : Int :=
  let u : Nat := bytes.foldl (fun a b => a * 256 + b) 0
  if u < 2 ^ 31 then (u : Int) else (u : Int) - 2 ^ 32

/-- Big-endian serialisation of a signed 32-bit integer (`i32::to_be_bytes`),
two's complement for negative values. -/
def i32_to_be (v : Int) : List Nat :=
  let u : Nat := (v % (2 : Int) ^ 32).toNat
  [u / 2 ^ 24 % 256, u / 2 ^ 16 % 256, u / 2 ^ 8 % 256, u % 256]

/-- Rust's `as usize` cast applied to an `i32` value: sign-extend and
reinterpret, i.e. reduce modulo `2 ^ 64`. -/
def usizeOfI32 (v : Int) : Nat := ((v % (2 : Int) ^ 64)).toNat

/-- Overwrite `xs` into `l` starting at byte offset `off`
(Rust `l[off..off + xs.len()].copy_from_slice(xs)` after its bounds check). -/
def listSplice (l : List Nat) (off : Nat) (xs : List Nat) : List Nat :=
  l.take off ++ xs ++ l.drop (off + xs.length)

/-- `Page` from `filemanager.rs`: a declared block size plus the backing
byte buffer (whose length the source does NOT tie to `block_size`). -/
structure Page where
  block_size : Nat
  byte_buffer : List Nat
deriving DecidableEq, Repr

/-- `PageBuilder::with_log_buffer`: the builder sets `block_size` to the
length of the supplied buffer. -/
def Page.withLogBuffer (buf : List Nat) : Page :=
  { block_size := buf.length, byte_buffer := buf }

/-- `Page::get_int` from `filemanager.rs` lines 63-70, modelled byte for
byte.  The source checks `offset + 4 > block_size` and returns `None`;
otherwise it slices `byte_buffer[offset..4]` — the constant `buf_size = 4`
is used as the END of the range — and converts the slice into a `[u8; 4]`
with `.try_into().unwrap()`.  The slice expression panics when
`offset > 4` or the buffer is shorter than 4, and the conversion panics
whenever the slice length is not exactly 4 (that is, whenever
`offset ≠ 0`). -/
def Page.get_int (p : Page) (offset : Nat) : PageRes Int :=
  if offset + 4 > p.block_size then .nf
  else if offset > 4 ∨ p.byte_buffer.length < 4 then .panicked
  else
    let bytes := (p.byte_buffer.drop offset).take (4 - offset)
    if bytes.length = 4 then .val (i32_from_be bytes) else .panicked

/-- `Page::get_bytes` (lines 72-79): `byte_buffer.get(offset * block_size..)`
returns `None` when the start exceeds the buffer length and otherwise the
whole remaining suffix (no length prefix is consulted). -/
def Page.get_bytes (p : Page) (offset : Nat) : PageRes (List Nat) :=
  if offset * p.block_size > p.byte_buffer.length then .nf
  else .val (p.byte_buffer.drop (offset * p.block_size))

/-- Bytes of a string under `str::as_bytes`.  Every string in this
development is ASCII, for which UTF-8 is the identity on code points. -/
def strBytes (s : String) : List Nat := s.data.map Char.toNat

/-- Drop the trailing zero bytes of a list (`trim_end_matches('\0')`). -/
def dropTrailingZeros (l : List Nat) : List Nat :=
  (l.reverse.dropWhile (fun b => b = 0)).reverse

/-- `Page::get_string` (lines 81-94): take the suffix starting at
`offset * block_size`, decode it as UTF-8 with
`String::from_utf8(..).ok().unwrap()` (a panic on invalid UTF-8), and trim
trailing NUL characters.  UTF-8 decoding is modelled on the ASCII subset
(all strings appearing in this development are ASCII); byte values ≥ 128
are mapped to the panic case. -/
def Page.get_string (p : Page) (offset : Nat) : PageRes String :=
  if offset * p.block_size > p.byte_buffer.length then .nf
  else
    let bytes := p.byte_buffer.drop (offset * p.block_size)
    if bytes.all (fun b => b < 128) then
      .val (String.mk ((dropTrailingZeros bytes).map Char.ofNat))
    else .panicked

/-- `Page::set_int` (lines 96-101): with `Some(val)` it copies the four
big-endian bytes into `byte_buffer[offset..offset + 4]`, panicking (`none`)
when that slice exceeds the buffer; there is no check against
`block_size`.  With `None` it does nothing. -/
def Page.set_int (p : Page) (offset : Nat) (val : Option Int) : Option Page :=
  match val with
  | none => some p
  | some v =>
    if offset + 4 > p.byte_buffer.length then none
    else some { p with byte_buffer := listSplice p.byte_buffer offset (i32_to_be v) }

/-- `Page::set_bytes` (lines 103-117): computes `len_aligned_offset =
offset * block_size`, panics (source: `panic!("out of range")`) when
`bytes.len() > block_size + offset`, writes the length with `set_int`
at `len_aligned_offset`, then copies the payload into
`byte_buffer[len_aligned_offset + block_size .. data_aligned_offset +
block_size]`, panicking when that slice exceeds the buffer. -/
def Page.set_bytes (p : Page) (offset : Nat) (bytes : Option (List Nat)) : Option Page :=
  match bytes with
  | none => some p
  | some bs =>
    let len_aligned_offset := offset * p.block_size
    if bs.length > p.block_size + offset then none
    else
      let data_aligned_offset := offset * p.block_size + bs.length
      match p.set_int len_aligned_offset (some (bs.length : Int)) with
      | none => none
      | some p1 =>
        if data_aligned_offset + p.block_size > p1.byte_buffer.length then none
        else some { p1 with
          byte_buffer := listSplice p1.byte_buffer (len_aligned_offset + p.block_size) bs }

/-- `Page::set_string` (lines 119-123): copies the raw UTF-8 bytes of the
string into `byte_buffer[offset..offset + len]` (no length prefix, no
`block_size` check), panicking when the slice exceeds the buffer. -/
def Page.set_string (p : Page) (offset : Nat) (val : Option String) : Option Page :=
  match val with
  | none => some p
  | some s =>
    let bs := strBytes s
    if offset + bs.length > p.byte_buffer.length then none
    else some { p with byte_buffer := listSplice p.byte_buffer offset bs }

/-- `Page::flush` (lines 125-127): reset the buffer to `block_size` zero
bytes. -/
def Page.pageFlush (p : Page) : Page :=
  { p with byte_buffer := List.replicate p.block_size 0 }

/-- A 16-byte zeroed page, `block_size = 16`; offset 4 is in range for a
4-byte integer read (`4 + 4 ≤ 16`). -/
def page16 : Page := Page.withLogBuffer (List.replicate 16 0)

/-- Operation tag `CHECKPOINT` (spec §4.4: first 4 bytes of a record). -/
def CHECKPOINT : Int := 0
/-- Operation tag `START`. -/
def START : Int := 1
/-- Operation tag `COMMIT`. -/
def COMMIT : Int := 2
/-- Operation tag `ROLLBACK`. -/
def ROLLBACK : Int := 3
/-- Operation tag `SETINT`. -/
def SETINT : Int := 4
/-- Operation tag `SETSTRING`. -/
def SETSTRING : Int := 5

/-- Modelled from the spec: the log-record tagged union of spec §3/§4.4
(`Checkpoint`, `Start(txn)`, `Commit(txn)`, `Rollback(txn)`,
`SetInt(txn, block, offset, old_value)`, `SetString(...)`).
`recoverymanager.rs` imports `LogRecordFactory` and the opcode constants
from `crate::logrecord`, but neither exists under `src/`; the parsed
record values handed to `do_rollback`/`do_recover` are therefore modelled
as this value-type union, with structural equality (the records are plain
data carrying the pre-image). -/
inductive LogRec where
  | checkpoint
  | start (txn : Int)
  | commit (txn : Int)
  | rollback (txn : Int)
  | setInt (txn : Int) (blk : BlockId) (offset : Int) (old : Int)
  | setString (txn : Int) (blk : BlockId) (offset : Int) (old : String)
deriving DecidableEq, Repr

/-- Modelled from the spec: each record's operation tag (spec §4.4:
Checkpoint=0, Start=1, Commit=2, Rollback=3, SetInt=4, SetString=5).
The source's `LogRecord::operation` is an associated function, called on
trait objects in `recoverymanager.rs`; the tag of the record's own variant
is the spec's (and the only coherent) reading. -/
def LogRec.operation : LogRec → Int
  | .checkpoint => CHECKPOINT
  | .start _ => START
  | .commit _ => COMMIT
  | .rollback _ => ROLLBACK
  | .setInt .. => SETINT
  | .setString .. => SETSTRING

/-- The transaction id carried by a record (`LogRecord::tx_number`);
`Checkpoint` carries none (the source parses one anyway, modelled 0). -/
def LogRec.tx_number : LogRec → Int
  | .checkpoint => 0
  | .start t => t
  | .commit t => t
  | .rollback t => t
  | .setInt t .. => t
  | .setString t .. => t

/-- `RecoveryManager::do_recover` from `recoverymanager.rs` lines 84-97,
as a function from the parsed log (most-recent-first, as produced by the
log iterator) to the list of records on which `rec.undo(..)` is invoked,
in invocation order.  The source keeps `finished_txns: Vec<_>` of whole
RECORDS: it pushes the record itself on a Commit/Rollback tag, stops on a
Checkpoint tag, and for every other record calls `undo` unless
`finished_txns.contains(&rec)` — a membership test on records, not on
transaction ids. -/
def do_recover_go (finished : List LogRec) : List LogRec → List LogRec
  | [] => []
  | r :: rest =>
    if r.operation = CHECKPOINT then []
    else if r.operation = COMMIT ∨ r.operation = ROLLBACK then
      do_recover_go (finished ++ [r]) rest
    else if r ∈ finished then do_recover_go finished rest
    else r :: do_recover_go finished rest

/-- `do_recover` starts with an empty `finished_txns` vector. -/
def do_recover (log : List LogRec) : List LogRec := do_recover_go [] log

/-- `RecoveryManager::do_rollback` from `recoverymanager.rs` lines 71-82,
as a function from the parsed log (most-recent-first) to the list of
records on which `rec.undo(..)` is invoked.  The source stops at the first
record whose tag is `START` — of ANY transaction — and calls `undo` on
every earlier record, with no filter on the record's transaction id
(the rolling-back transaction's number is never consulted). -/
def do_rollback : List LogRec → List LogRec
  | [] => []
  | r :: rest => if r.operation = START then [] else r :: do_rollback rest

/-- The block used by the recovery counterexamples. -/
def demoBlk : BlockId := { file_name := "f", block_num := 0 }

/-- C2: the spec says `recover()` adds a transaction ID to the finished
set on each Commit/Rollback record and performs no undo of a committed
transaction's writes (Scenario D).  The code's `finished_txns` holds whole
records and the guard is `finished_txns.contains(&rec)`, so a committed
transaction's `SetInt` record — which never equals its Commit record — is
undone anyway: scanning `[Commit(1), SetInt(1, blk, 0, 0)]` backward
invokes undo on the committed transaction's `SetInt` record. -/
theorem c2_recover_undoes_committed_txn :
    do_recover [LogRec.commit 1, LogRec.setInt 1 demoBlk 0 0] =
      [LogRec.setInt 1 demoBlk 0 0] ∧
    (LogRec.setInt 1 demoBlk 0 0).tx_number = (LogRec.commit 1).tx_number := by
  decide

/-- C3: the spec says `rollback(txn)` undoes only records belonging to
`txn` and stops at `txn`'s own Start record.  The code's `do_rollback`
never consults the transaction id: rolling back transaction 1 over the log
`[SetInt(2, blk, 5, 7), Start(1)]` invokes undo on transaction 2's record
(and it stops at the first Start record of any transaction). -/
theorem c3_rollback_touches_other_txn :
    do_rollback [LogRec.setInt 2 demoBlk 5 7, LogRec.start 1] =
      [LogRec.setInt 2 demoBlk 5 7] ∧
    (LogRec.setInt 2 demoBlk 5 7).tx_number ≠ 1 := by decide

/-- The durability-relevant state of `LogManager` seen by the buffer pool:
the `latest_lsn` counter and the durability frontier `last_lsn`
(`logmanager.rs` lines 60-67). -/
structure LogSt where
  latest_lsn : Int
  last_lsn : Int
deriving DecidableEq, Repr

/-- Durability-relevant events emitted on the commit path, in program
order: a log flush (carrying the new `last_lsn`), a buffer-page write to
a block (carrying the buffer's recorded LSN), and the append of the
transaction's closing commit record (carrying its LSN). -/
inductive Event where
  | logFlush (upto : Int)
  | writePage (blk : BlockId) (lsn : Option Nat)
  | appendCommitRec (txn : Nat) (lsn : Int)
deriving DecidableEq, Repr

/-- `LogManager::flush` (`logmanager.rs` lines 97-109): if
`latest_lsn >= last_lsn`, write the tail page to disk and set
`last_lsn = latest_lsn`; the disk write is recorded as a `logFlush`
event. -/
def LogSt.flushLog (l : LogSt) : LogSt × List Event :=
  if l.last_lsn ≤ l.latest_lsn then
    ({ l with last_lsn := l.latest_lsn }, [Event.logFlush l.latest_lsn])
  else (l, [])

/-- `Buffer` from `buffermanager.rs` lines 8-16: the assigned block (if
any), the pin count (`AtomicI32`, so it may go negative), the id of the
last modifying transaction and that modification's LSN.  Page contents are
not tracked here; the byte level is modelled separately on `Page`. -/
structure Buffer where
  block_id : Option BlockId
  pins : Int
  txn : Option Nat
  lsn : Option Nat
deriving DecidableEq, Repr

/-- `Buffer::new`: no block, zero pins, no modification recorded. -/
def Buffer.new : Buffer := { block_id := none, pins := 0, txn := none, lsn := none }

/-- `Buffer::pinned`: pin count strictly positive. -/
def Buffer.pinned (b : Buffer) : Bool := 0 < b.pins

/-- `Buffer::flush` from `buffermanager.rs` lines 70-93.  If a modifying
transaction `txn` is recorded it first calls `LogManager::flush`, then,
when a block is assigned, writes the page to that block and updates the
marker by `if txn == 1 { None } else { Some(txn - 1) }` — a DECREMENT of
the transaction id rather than a clear (`txn = 0` would underflow a usize
in the source; no theorem relies on that case).  With no block assigned it
only warns, leaving the marker in place.  Returns the updated buffer, the
updated log state, and the emitted events in order. -/
def Buffer.flush (b : Buffer) (log : LogSt) : Buffer × LogSt × List Event :=
  match b.txn with
  | none => (b, log, [])
  | some t =>
    let fl := log.flushLog
    match b.block_id with
    | none => (b, fl.1, fl.2)
    | some blid =>
      ({ b with txn := if t = 1 then none else some (t - 1) },
       fl.1,
       fl.2 ++ [Event.writePage blid b.lsn])

/-- `BufferManager` from `buffermanager.rs` lines 95-100: the fixed pool
and the available-buffer counter. -/
structure BufferManager where
  buffer_pool : List Buffer
  buff_n_available : Int
deriving DecidableEq, Repr

/-- `BufferManager::new` (lines 105-118): `buff_n` fresh buffers,
`buff_n_available = buff_n`. -/
def BufferManager.new (buff_n : Nat) : BufferManager :=
  { buffer_pool := List.replicate buff_n Buffer.new,
    buff_n_available := (buff_n : Int) }

/-- `BufferManager::find_buffer` (lines 163-172): index of the first
buffer whose assigned block equals `block_id`. -/
def BufferManager.find_buffer (bm : BufferManager) (block_id : BlockId) : Option Nat :=
  bm.buffer_pool.findIdx? (fun b => b.block_id = some block_id)

/-- `BufferManager::find_unpinned_buffer` (lines 174-181): index of the
first buffer that is not pinned. -/
def BufferManager.find_unpinned_buffer (bm : BufferManager) : Option Nat :=
  bm.buffer_pool.findIdx? (fun b => !b.pinned)

/-- `BufferManager::try_pin` (lines 155-161): the existing buffer for the
block, else any unpinned buffer.  The source performs NO reassignment, NO
disk read and NO pin-count increment — it merely returns the buffer. -/
def BufferManager.try_pin (bm : BufferManager) (block_id : BlockId) : Option Nat :=
  match bm.find_buffer block_id with
  | some i => some i
  | none => bm.find_unpinned_buffer

/-- `BufferManager::pin` (lines 119-130): polls `try_pin` until it
succeeds or 1000 ms elapse.  The loop never mutates the pool, so in this
single-threaded model the first `try_pin` outcome is final: a `none`
outcome repeats until the timeout fires (the `BufferUnavailable`
failure).  The pool state is returned unchanged, exactly as in the
source. -/
def BufferManager.pin (bm : BufferManager) (block_id : BlockId) :
    Option Nat × BufferManager :=
  (bm.try_pin block_id, bm)

/-- `BufferManager::unpin` (lines 132-137) on the buffer at index `i`:
decrement its pin count (`fetch_sub`, unguarded, may go negative) and,
when the buffer is then not pinned, increment `buff_n_available`. -/
def BufferManager.unpin (bm : BufferManager) (i : Nat) : BufferManager :=
  match bm.buffer_pool.get? i with
  | none => bm
  | some b =>
    let b' := { b with pins := b.pins - 1 }
    let pool' := bm.buffer_pool.set i b'
    if b'.pinned then { bm with buffer_pool := pool' }
    else { bm with buffer_pool := pool',
                   buff_n_available := bm.buff_n_available + 1 }

/-- Number of pool slots with pin count exactly 0 (what the spec says
`available_buffers()` reports). -/
def zeroPinCount (bm : BufferManager) : Nat :=
  (bm.buffer_pool.filter (fun b => b.pins = 0)).length

/-- C4: the spec says a successful `pin(blockId)` either returns the
buffer already holding the block or reassigns an unpinned buffer to it,
loading the block from disk, and in both cases increments the pin count.
The code does none of that: on a fresh pool of capacity 1,
`pin({"f", 0})` returns slot 0 while leaving the pool bit-for-bit
unchanged — the slot still has pin count 0, no assigned block and no
loaded contents. -/
theorem c4_pin_neither_assigns_nor_increments :
    (BufferManager.new 1).pin { file_name := "f", block_num := 0 } =
      (some 0, BufferManager.new 1) ∧
    (BufferManager.new 1).buffer_pool =
      [{ block_id := none, pins := 0, txn := none, lsn := none }] := by decide

/-- C6: the spec says that after any sequence of `pin`/`unpin` calls,
`available_buffers()` equals the number of pin-count-0 slots.  Because
`pin` never increments a pin count, the sequence "pin a block (obtaining
slot 0), then unpin that slot" on a fresh pool of capacity 2 drives slot
0's pin count to -1 and the available counter to 3, while only one slot
has pin count 0. -/
theorem c6_available_buffers_mismatch :
    ((BufferManager.new 2).pin { file_name := "f", block_num := 0 }).1 = some 0 ∧
    (((BufferManager.new 2).pin { file_name := "f", block_num := 0 }).2.unpin 0).buff_n_available = 3 ∧
    zeroPinCount (((BufferManager.new 2).pin { file_name := "f", block_num := 0 }).2.unpin 0) = 1 := by
  decide

/-- The buffer used in the C9 counterexample: modified by transaction 2 at
LSN 1, assigned to block `{"f", 0}`. -/
def c9buf : Buffer :=
  { block_id := some { file_name := "f", block_num := 0 },
    pins := 0, txn := some 2, lsn := some 1 }

/-- Log state for the C9 counterexample. -/
def c9log : LogSt := { latest_lsn := 1, last_lsn := 0 }

/-- C9: the spec says `Buffer::flush` clears the modification marker, so
after one flush the marker is absent and an immediately repeated flush
performs no further disk write.  The code instead DECREMENTS the recorded
transaction id: flushing a buffer modified by transaction 2 leaves the
marker at `Some(1)`, and a second flush emits another log flush and
another page write. -/
theorem c9_flush_keeps_marker_and_rewrites :
    ((c9buf.flush c9log).1).txn = some 1 ∧
    (((c9buf.flush c9log).1).flush (c9buf.flush c9log).2.1).2.2 =
      [Event.logFlush 1,
       Event.writePage { file_name := "f", block_num := 0 } (some 1)] := by decide

/-- Modelled from the spec: `Page::max_len`, used by every record codec in
`logrecord.rs` but absent from `src/`.  Spec §3: strings are
length-prefixed, "a 4-byte length header followed by raw bytes", so the
maximum byte length of a string slot is 4 plus the string's byte
length. -/
def Page.max_len (s : String) : Nat := 4 + (strBytes s).length

/-- `SetIntLogRecord::write_to_log_record` from `logrecord.rs` lines
119-136, down to the produced record bytes (`page.bytes()`, the vector
handed to `LogManager::append`).  Offsets exactly as in the source:
`tx_pos = 4`, `filename_pos = 8`, `block_pos = Page::max_len(file_name)`,
`offset_pos = block_pos + 4`, `value_pos = offset_pos + 4`,
`record_len = value_pos + 4`; the tag written at offset 0 is `SETINT`. -/
def SetIntLogRecord.write_to_log_record (tx_number : Int) (block_id : BlockId)
    (offset : Int) (value : Int) : Option (List Nat) :=
  let tx_pos := 4
  let filename_pos := tx_pos + 4
  let block_pos := Page.max_len block_id.file_name
  let offset_pos := block_pos + 4
  let value_pos := offset_pos + 4
  let record_len := value_pos + 4
  let p0 := Page.withLogBuffer (List.replicate record_len 0)
  (p0.set_int 0 (some SETINT)).bind fun p1 =>
  (p1.set_int tx_pos (some tx_number)).bind fun p2 =>
  (p2.set_string filename_pos (some block_id.file_name)).bind fun p3 =>
  (p3.set_int block_pos (some (block_id.block_num : Int))).bind fun p4 =>
  (p4.set_int offset_pos (some offset)).bind fun p5 =>
  (p5.set_int value_pos (some value)).map fun p6 => p6.byte_buffer

/-- `CommitLogRecord::write_to_log_record` from `logrecord.rs` lines
178-195.  The body is a copy of the SetInt encoder: the tag written at
offset 0 is `Self::SETINT` (line 187), although `CommitLogRecord`'s own
`operation()` returns `COMMIT`. -/
def CommitLogRecord.write_to_log_record (tx_number : Int) (block_id : BlockId)
    (offset : Int) (value : Int) : Option (List Nat) :=
  let tx_pos := 4
  let filename_pos := tx_pos + 4
  let block_pos := Page.max_len block_id.file_name
  let offset_pos := block_pos + 4
  let value_pos := offset_pos + 4
  let record_len := value_pos + 4
  let p0 := Page.withLogBuffer (List.replicate record_len 0)
  (p0.set_int 0 (some SETINT)).bind fun p1 =>
  (p1.set_int tx_pos (some tx_number)).bind fun p2 =>
  (p2.set_string filename_pos (some block_id.file_name)).bind fun p3 =>
  (p3.set_int block_pos (some (block_id.block_num : Int))).bind fun p4 =>
  (p4.set_int offset_pos (some offset)).bind fun p5 =>
  (p5.set_int value_pos (some value)).map fun p6 => p6.byte_buffer

/-- `SetIntLogRecord::new` from `logrecord.rs` lines 103-117: decode the
record bytes back into `(tx_number, file_name, block_num, offset, value)`.
Every field read is `.unwrap()`ed in the source, so any not-found or
panicking page access makes the whole decode panic (`none`). -/
def SetIntLogRecord.new (bytes : List Nat) : Option (Int × String × Int × Int × Int) :=
  let page := Page.withLogBuffer bytes
  let tx_pos := 4
  match page.get_int tx_pos with
  | .val tx_number =>
    let filename_pos := tx_pos + 4
    match page.get_string filename_pos with
    | .val filename =>
      let block_pos := Page.max_len filename
      match page.get_int block_pos with
      | .val block_num =>
        let offset_pos := block_pos + 4
        match page.get_int offset_pos with
        | .val offset =>
          let value_pos := offset_pos + 4
          match page.get_int value_pos with
          | .val value => some (tx_number, filename, block_num, offset, value)
          | _ => none
        | _ => none
      | _ => none
    | _ => none
  | _ => none

/-- C8: the spec says every encoded record's first 4 bytes are the tag of
its own variant (Commit=2) and that encode-then-decode of a Set* record
returns the identical tuple.  The code violates both conjuncts:
`CommitLogRecord::write_to_log_record` writes the tag `SETINT` (4), and
decoding an encoded SetInt record panics at its very first field read,
because `Page::get_int(4)` slices `byte_buffer[4..4]` (the `offset..4`
slip) and fails the `[u8; 4]` conversion. -/
theorem c8_commit_tag_wrong_and_roundtrip_panics :
    (CommitLogRecord.write_to_log_record 7 demoBlk 2 9).map (fun bs => bs.take 4) =
      some [0, 0, 0, 4] ∧
    SETINT = 4 ∧ COMMIT = 2 ∧
    (SetIntLogRecord.write_to_log_record 7 demoBlk 2 9).map SetIntLogRecord.new =
      some none := by decide

/-- `LogIterator` state from `logmanager.rs` lines 6-11: the block size of
the file manager, the page the current block was read into, the current
block's number, and the running offset within the block. -/
structure LogIterator where
  block_size : Nat
  log_page : Page
  block_num : Nat
  current_offset : Int
deriving DecidableEq, Repr

/-- `LogIterator::next` from `logmanager.rs` lines 37-58.  It yields
`None` as soon as `current_offset >= block_size` — OR whenever the current
block's number is greater than 0 (`|| self.block_id.block_num() > 0`);
there is no code that steps to the previous block.  Otherwise it returns
`log_page.get_bytes(current_offset)` (the suffix starting at
`current_offset * block_size`, per `Page::get_bytes`) and advances the
offset by `4 + bytes.len()`. -/
def LogIterator.next (it : LogIterator) : Option (List Nat) × LogIterator :=
  if (it.block_size : Int) ≤ it.current_offset ∨ 0 < it.block_num then (none, it)
  else
    match it.log_page.get_bytes (usizeOfI32 it.current_offset) with
    | .val bytes =>
      (some bytes,
       { it with current_offset := it.current_offset + ((4 + bytes.length : Nat) : Int) })
    | _ => (none, it)

/-- An iterator freshly positioned on the tail block of a two-block log
(block number 1), boundary 18 — mid-block, records still unread. -/
def c5iter : LogIterator :=
  { block_size := 32,
    log_page := Page.withLogBuffer (List.replicate 32 0),
    block_num := 1,
    current_offset := 18 }

/-- C5: the spec says the iterator yields every appended record
most-recent-first, yielding the tail block's records before stepping to
the previous block number.  The code's `next` returns `None` for ANY block
whose number is greater than 0 (an inverted `hasNext` condition), so on
the two-block log of Scenario B a fresh iterator on tail block 1 yields
nothing at all, even though its offset (18) is well inside the block. -/
theorem c5_iterator_dies_on_tail_block :
    (c5iter.next).1 = none ∧ 0 < c5iter.block_num ∧
    c5iter.current_offset < (c5iter.block_size : Int) := by decide

/-- The external `BlockStore`/`FileManager` collaborator as seen by the
log manager (spec §1 places raw block-store file I/O out of scope and §6
gives its contract): `file_len` is `FileManager::length` of the log file
(`None` when the file is unknown), `disk_block i` the bytes of block `i`,
and `next_block` the block number a `FileManager::append` would
allocate. -/
structure BuildEnv where
  file_len : Option Nat
  disk_block : Nat → List Nat
  next_block : Nat

/-- Reading a (possibly short) disk block into a fresh zeroed buffer of
`n` bytes: the bytes read, zero-padded to length `n`. -/
def padTo (n : Nat) (l : List Nat) : List Nat :=
  l.take n ++ List.replicate (n - (l.take n).length) 0

/-- `LogManager` state from `logmanager.rs` lines 60-67: log file name,
in-memory tail page, tail block id, `latest_lsn` and `last_lsn`. -/
structure LMModel where
  log_file : String
  log_page : Page
  block_id : BlockId
  latest_lsn : Int
  last_lsn : Int
deriving DecidableEq, Repr

/-- `LogManagerBuilder::append_new_block` (`logmanager.rs` lines 177-186):
allocate a fresh block, write `block_size` into the page's boundary slot
and write the page out (the disk write is not tracked). -/
def LogManagerBuilder.append_new_block (env : BuildEnv) (log_file : String)
    (block_size : Nat) (page : Page) : Option (BlockId × Page) :=
  (page.set_int 0 (some (block_size : Int))).map fun p' =>
    ({ file_name := log_file, block_num := env.next_block }, p')

/-- `LogManagerBuilder::build` (`logmanager.rs` lines 142-175): start from
a zeroed page of `block_size` bytes; when the file manager reports no log
file (or an empty one) allocate a fresh block, otherwise read block
`file_len - 1` into the page and adopt it as the tail.  In EVERY branch
the constructed manager has `latest_lsn = 0` and `last_lsn = 0`. -/
def LogManagerBuilder.build (env : BuildEnv) (log_file : String)
    (block_size : Nat) : Option LMModel :=
  let page := Page.withLogBuffer (List.replicate block_size 0)
  match env.file_len with
  | none =>
    (LogManagerBuilder.append_new_block env log_file block_size page).map fun bp =>
      { log_file := log_file, log_page := bp.2, block_id := bp.1,
        latest_lsn := 0, last_lsn := 0 }
  | some n =>
    if 0 < n then
      some { log_file := log_file,
             log_page := { page with byte_buffer := padTo block_size (env.disk_block (n - 1)) },
             block_id := { file_name := log_file, block_num := n - 1 },
             latest_lsn := 0, last_lsn := 0 }
    else
      (LogManagerBuilder.append_new_block env log_file block_size page).map fun bp =>
        { log_file := log_file, log_page := bp.2, block_id := bp.1,
          latest_lsn := 0, last_lsn := 0 }

/-- `LogManager::flush` (lines 97-109) at the byte level: when
`latest_lsn >= last_lsn` the tail page is written out (untracked here) and
`last_lsn` becomes `latest_lsn`. -/
def LMModel.lmFlush (m : LMModel) : LMModel :=
  if m.last_lsn ≤ m.latest_lsn then { m with last_lsn := m.latest_lsn } else m

/-- `LogManager::append_new_block` (lines 111-121): zero the tail page,
write the boundary `block_size` at offset 0, allocate the next block
number from the file manager, and write the page out (untracked). -/
def LMModel.append_new_block (m : LMModel) (env : BuildEnv) : Option LMModel :=
  let p := m.log_page.pageFlush
  (p.set_int 0 (some (m.log_page.block_size : Int))).map fun p' =>
    { m with log_page := p',
             block_id := { file_name := m.log_file, block_num := env.next_block } }

/-- The tail of `LogManager::append` once the target boundary is known:
`recpos = boundary as usize - bytes_needed` (a usize subtraction that
panics on underflow), `set_bytes(recpos, rec)`, `set_int(0, recpos)`,
increment and return `latest_lsn`. -/
def LMModel.appendAt (m : LMModel) (rec : List Nat) (boundary : Int) :
    Option (Int × LMModel) :=
  let bytes_needed := rec.length + 4
  let bU := usizeOfI32 boundary
  if bU < bytes_needed then none
  else
    let recpos := bU - bytes_needed
    match m.log_page.set_bytes recpos (some rec) with
    | none => none
    | some p1 =>
      match p1.set_int 0 (some (recpos : Int)) with
      | none => none
      | some p2 =>
        some (m.latest_lsn + 1, { m with log_page := p2, latest_lsn := m.latest_lsn + 1 })

/-- `LogManager::append` (`logmanager.rs` lines 74-95): read the boundary
at offset 0 (a missing boundary is the source's `panic!("no page
available")`); when `(b as usize - bytes_needed) < 4` — the usize
subtraction panics on underflow — flush the tail, start a new block and
re-read the boundary; place the record and return the incremented
`latest_lsn`. -/
def LMModel.append (m : LMModel) (env : BuildEnv) (rec : List Nat) :
    Option (Int × LMModel) :=
  let bytes_needed := rec.length + 4
  match m.log_page.get_int 0 with
  | .val b =>
    let bU := usizeOfI32 b
    if bU < bytes_needed then none
    else if bU - bytes_needed < 4 then
      match (m.lmFlush).append_new_block env with
      | none => none
      | some m2 =>
        match m2.log_page.get_int 0 with
        | .val boundary => m2.appendAt rec boundary
        | _ => none
    else m.appendAt rec b
  | _ => none

/-- `LMModel.lmFlush` does not change `latest_lsn`. -/
lemma LMModel.lmFlush_latest (m : LMModel) : (m.lmFlush).latest_lsn = m.latest_lsn := by
  unfold LMModel.lmFlush; split <;> rfl

/-- `LMModel.append_new_block` does not change `latest_lsn`. -/
lemma LMModel.append_new_block_latest {m m2 : LMModel} {env : BuildEnv}
    (h : m.append_new_block env = some m2) : m2.latest_lsn = m.latest_lsn := by
  unfold LMModel.append_new_block at h
  dsimp only at h
  cases hx : (m.log_page.pageFlush).set_int 0 (some (m.log_page.block_size : Int)) with
  | none => simp only [hx, Option.map_none'] at h; exact Option.noConfusion h
  | some p' =>
    simp only [hx, Option.map_some', Option.some.injEq] at h
    rw [← h]

/-- A successful `appendAt` returns exactly `latest_lsn + 1`. -/
lemma LMModel.appendAt_lsn {m m' : LMModel} {rec : List Nat} {boundary lsn : Int}
    (h : m.appendAt rec boundary = some (lsn, m')) : lsn = m.latest_lsn + 1 := by
  unfold LMModel.appendAt at h
  dsimp only at h
  by_cases h1 : usizeOfI32 boundary < rec.length + 4
  · rw [if_pos h1] at h; exact absurd h (by simp)
  · rw [if_neg h1] at h
    cases hs : m.log_page.set_bytes (usizeOfI32 boundary - (rec.length + 4)) (some rec) with
    | none => simp only [hs] at h; exact Option.noConfusion h
    | some p1 =>
      simp only [hs] at h
      cases hi : p1.set_int 0 (some ((usizeOfI32 boundary - (rec.length + 4) : Nat) : Int)) with
      | none => simp only [hi] at h; exact Option.noConfusion h
      | some p2 =>
        simp only [hi, Option.some.injEq, Prod.mk.injEq] at h
        exact h.1.symm

/-- A successful `append` returns exactly `latest_lsn + 1` of the manager
it was called on. -/
lemma LMModel.append_lsn {m m' : LMModel} {env : BuildEnv} {rec : List Nat} {lsn : Int}
    (h : m.append env rec = some (lsn, m')) : lsn = m.latest_lsn + 1 := by
  unfold LMModel.append at h
  dsimp only at h
  cases hg : m.log_page.get_int 0 with
  | nf => simp only [hg] at h; exact Option.noConfusion h
  | panicked => simp only [hg] at h; exact Option.noConfusion h
  | val b =>
    simp only [hg] at h
    by_cases h1 : usizeOfI32 b < rec.length + 4
    · rw [if_pos h1] at h; exact absurd h (by simp)
    · rw [if_neg h1] at h
      by_cases h2 : usizeOfI32 b - (rec.length + 4) < 4
      · rw [if_pos h2] at h
        cases hm2 : (m.lmFlush).append_new_block env with
        | none => simp only [hm2] at h; exact Option.noConfusion h
        | some m2 =>
          simp only [hm2] at h
          cases hbd : m2.log_page.get_int 0 with
          | nf => simp only [hbd] at h; exact Option.noConfusion h
          | panicked => simp only [hbd] at h; exact Option.noConfusion h
          | val boundary =>
            simp only [hbd] at h
            rw [LMModel.appendAt_lsn h, LMModel.append_new_block_latest hm2,
              LMModel.lmFlush_latest]
      · rw [if_neg h2] at h
        exact LMModel.appendAt_lsn h

/-- C10 (implicit, from `LogManagerBuilder::build`): constructing a
`LogManager` always initialises `latest_lsn = 0` and `last_lsn = 0`.  In
the case emphasised by the claim — the log file already exists with `n >
0` blocks — the builder additionally reads block `n - 1` back in as the
tail, and the first successful `append` after the reopen returns LSN 1,
so LSNs restart from 1 and are not unique across runs. -/
theorem c10_lsn_counters_restart (env : BuildEnv) (lf : String) (bsz : Nat) (n : Nat)
    (m : LMModel) (rec : List Nat) (lsn : Int) (m' : LMModel)
    (hn : env.file_len = some n) (hpos : 0 < n)
    (hb : LogManagerBuilder.build env lf bsz = some m)
    (ha : m.append env rec = some (lsn, m')) :
    m.latest_lsn = 0 ∧ m.last_lsn = 0 ∧
    m.block_id = { file_name := lf, block_num := n - 1 } ∧ lsn = 1 := by
  unfold LogManagerBuilder.build at hb
  rw [hn] at hb
  simp only [if_pos hpos, Option.some.injEq] at hb
  have hlsn := LMModel.append_lsn ha
  subst hb
  exact ⟨rfl, rfl, rfl, by simpa using hlsn⟩

/-- Block-store environment for the C10 witness: the log file exists with
"2 blocks", block 1 carrying boundary 4. -/
def c10env : BuildEnv :=
  { file_len := some 2, disk_block := fun _ => [0, 0, 0, 4], next_block := 2 }

/-- The manager produced by `LogManagerBuilder.build c10env "log.wal" 4`. -/
def c10m : LMModel :=
  { log_file := "log.wal",
    log_page := { block_size := 4, byte_buffer := [0, 0, 0, 4] },
    block_id := { file_name := "log.wal", block_num := 1 },
    latest_lsn := 0, last_lsn := 0 }

/-- The manager after appending one empty record to `c10m`. -/
def c10m' : LMModel :=
  { log_file := "log.wal",
    log_page := { block_size := 4, byte_buffer := [0, 0, 0, 0] },
    block_id := { file_name := "log.wal", block_num := 2 },
    latest_lsn := 1, last_lsn := 0 }

/-- Witness for C10: at the concrete reopen environment `c10env` the
builder yields `c10m` with both counters 0 and tail block 1, and the first
append returns LSN 1. -/
theorem c10_lsn_counters_restart_witness :
    (c10env.file_len = some 2 ∧
     LogManagerBuilder.build c10env "log.wal" 4 = some c10m ∧
     LMModel.append c10m c10env [] = some (1, c10m')) ∧
    (c10m.latest_lsn = 0 ∧ c10m.last_lsn = 0 ∧
     c10m.block_id = { file_name := "log.wal", block_num := 1 } ∧ (1 : Int) = 1) :=
  ⟨⟨by decide, by decide, by decide⟩,
   c10_lsn_counters_restart c10env "log.wal" 4 2 c10m [] 1 c10m'
     (by decide) (by decide) (by decide) (by decide)⟩

/-- `BufferManager::flush_all_buffers` (`buffermanager.rs` lines 143-149)
over the pool list: every buffer whose recorded modifying transaction
equals `txn` is flushed, in pool order, threading the log state and
concatenating the emitted events. -/
def flushAllGo (txn : Nat) : LogSt → List Buffer → List Buffer × LogSt × List Event
  | log, [] => ([], log, [])
  | log, b :: rest =>
    if b.txn = some txn then
      let f := b.flush log
      let r := flushAllGo txn f.2.1 rest
      (f.1 :: r.1, r.2.1, f.2.2 ++ r.2.2)
    else
      let r := flushAllGo txn log rest
      (b :: r.1, r.2.1, r.2.2)

/-- `BufferManager::flush_all_buffers` packaged on the manager. -/
def BufferManager.flush_all_buffers (bm : BufferManager) (log : LogSt) (txn_num : Nat) :
    BufferManager × LogSt × List Event :=
  let r := flushAllGo txn_num log bm.buffer_pool
  ({ bm with buffer_pool := r.1 }, r.2.1, r.2.2)

/-- `RecoveryManager::commit` (`recoverymanager.rs` lines 31-37):
`flush_all_buffers(txn)`, then append the transaction's closing commit
record (`CommitLogRecord::write_to_log_record`, whose
`LogManager::append` allocates LSN `latest_lsn + 1`; its byte-level
encoding is modelled separately above), then `LogManager::flush`.  The
returned event list is the commit call's durability trace in program
order; commit returns only after the last event. -/
def RecoveryManager.commit (bm : BufferManager) (log : LogSt) (txn : Nat) :
    BufferManager × LogSt × List Event :=
  let fa := bm.flush_all_buffers log txn
  let lsn := fa.2.1.latest_lsn + 1
  let log2 : LogSt := { latest_lsn := lsn, last_lsn := fa.2.1.last_lsn }
  let fl := log2.flushLog
  (fa.1, fl.1, fa.2.2 ++ [Event.appendCommitRec txn lsn] ++ fl.2)

/-- The durability trace of one `commit` call. -/
def commitTrace (bm : BufferManager) (log : LogSt) (txn : Nat) : List Event :=
  (RecoveryManager.commit bm log txn).2.2

/-- WAL-before-data over a trace: every page write carrying a recorded
LSN is preceded by a log flush whose durability frontier covers that
LSN. -/
def covered (tr : List Event) : Prop :=
  ∀ i blk l, tr.get? i = some (Event.writePage blk (some l)) →
    ∃ j v, j < i ∧ tr.get? j = some (Event.logFlush v) ∧ (l : Int) ≤ v

/-- The empty trace is covered. -/
lemma covered_nil : covered [] := by
  intro i blk l h
  simp at h

/-- A trace with no page-write events is covered. -/
lemma covered_no_writes {tr : List Event}
    (h : ∀ blk l, Event.writePage blk (some l) ∉ tr) : covered tr := by
  intro i blk l hi
  exact absurd (List.get?_mem hi) (h blk l)

/-- Concatenation preserves coverage. -/
lemma covered_append {t1 t2 : List Event} (h1 : covered t1) (h2 : covered t2) :
    covered (t1 ++ t2) := by
  intro i blk l h
  by_cases hi : i < t1.length
  · rw [List.get?_append hi] at h
    obtain ⟨j, v, hj, hjf, hlv⟩ := h1 i blk l h
    refine ⟨j, v, hj, ?_, hlv⟩
    rw [List.get?_append (hj.trans hi)]
    exact hjf
  · push_neg at hi
    rw [List.get?_append_right hi] at h
    obtain ⟨j, v, hj, hjf, hlv⟩ := h2 (i - t1.length) blk l h
    refine ⟨j + t1.length, v, by omega, ?_, hlv⟩
    rw [List.get?_append_right (by omega)]
    simpa using hjf

/-- The two-event trace emitted by a single buffer flush — a log flush to
frontier `v` immediately followed by the page write — is covered when the
buffer's recorded LSN is at most `v`. -/
lemma covered_flush_write {v : Int} {blk : BlockId} {lsn : Option Nat}
    (hle : ∀ l, lsn = some l → (l : Int) ≤ v) :
    covered [Event.logFlush v, Event.writePage blk lsn] := by
  intro i blk' l h
  match i with
  | 0 => simp at h
  | 1 =>
    simp at h
    exact ⟨0, v, by omega, rfl, hle l h.2⟩
  | n + 2 => simp at h

/-- Buffer flush under a matching transaction marker and a well-formed
log (`last_lsn ≤ latest_lsn`): the log is flushed to `latest_lsn`, and
the event list is the log flush alone (no block assigned) or the log
flush immediately followed by the page write. -/
lemma Buffer.flush_eval {b : Buffer} {log : LogSt} {t : Nat} (ht : b.txn = some t)
    (hll : log.last_lsn ≤ log.latest_lsn) :
    (b.flush log).2.1 = { latest_lsn := log.latest_lsn, last_lsn := log.latest_lsn } ∧
    ((b.flush log).2.2 = [Event.logFlush log.latest_lsn] ∨
      ∃ blid, (b.flush log).2.2 =
        [Event.logFlush log.latest_lsn, Event.writePage blid b.lsn]) := by
  unfold Buffer.flush
  rw [ht]
  dsimp only
  unfold LogSt.flushLog
  rw [if_pos hll]
  cases hb : b.block_id with
  | none => exact ⟨rfl, Or.inl rfl⟩
  | some blid => exact ⟨rfl, Or.inr ⟨blid, rfl⟩⟩

/-- Main invariant of `flush_all_buffers`: it never advances
`latest_lsn`, keeps `last_lsn` at most `latest_lsn`, and its event trace
satisfies WAL-before-data, provided every pool buffer's recorded LSN is
at most the log's `latest_lsn`. -/
lemma flushAllGo_spec (txn : Nat) (pool : List Buffer) :
    ∀ (log : LogSt), log.last_lsn ≤ log.latest_lsn →
      (∀ b ∈ pool, ∀ l, b.lsn = some l → (l : Int) ≤ log.latest_lsn) →
      (flushAllGo txn log pool).2.1.latest_lsn = log.latest_lsn ∧
      (flushAllGo txn log pool).2.1.last_lsn ≤ log.latest_lsn ∧
      covered (flushAllGo txn log pool).2.2 := by
  induction pool with
  | nil =>
    intro log hll _
    exact ⟨rfl, hll, covered_nil⟩
  | cons b rest ih =>
    intro log hll hb
    by_cases hmatch : b.txn = some txn
    · obtain ⟨hlog', hev⟩ := Buffer.flush_eval hmatch hll
      have hll' : ((b.flush log).2.1).last_lsn ≤ ((b.flush log).2.1).latest_lsn := by
        rw [hlog']
      have hlat' : ((b.flush log).2.1).latest_lsn = log.latest_lsn := by rw [hlog']
      have hbrest : ∀ b' ∈ rest, ∀ l, b'.lsn = some l →
          (l : Int) ≤ ((b.flush log).2.1).latest_lsn := by
        intro b' hbm l hl
        rw [hlat']
        exact hb b' (List.mem_cons_of_mem _ hbm) l hl
      obtain ⟨hrl, hrle, hrc⟩ := ih ((b.flush log).2.1) hll' hbrest
      have hcovb : covered (b.flush log).2.2 := by
        rcases hev with he | ⟨blid, he⟩
        · rw [he]
          exact covered_no_writes (by intro blk l hmem; simp at hmem)
        · rw [he]
          exact covered_flush_write (fun l hl => hb b (List.mem_cons_self _ _) l hl)
      simp only [flushAllGo, if_pos hmatch]
      refine ⟨hrl.trans hlat', ?_, covered_append hcovb hrc⟩
      rw [hlat'] at hrle
      exact hrle
    · have hrec := ih log hll (fun b' hb' l hl => hb b' (List.mem_cons_of_mem _ hb') l hl)
      simpa only [flushAllGo, if_neg hmatch] using hrec

/-- C1: WAL-before-data with commit durability on the commit path
(`RecoveryManager::commit` orchestrating `flush_all_buffers` and
`Buffer::flush`).  Given a well-formed log (`last_lsn ≤ latest_lsn`) and
every buffer's recorded LSN at most `latest_lsn` (LSNs are handed out by
`LogManager::append`), the commit trace satisfies: every buffer-page disk
write is preceded by a log flush covering that buffer's recorded LSN, and
the trace ends with the append of the transaction's closing commit record
immediately followed by a log flush covering that record's LSN — so no
dirty page reaches durable storage before its LSN is durable, and commit
returns only after its closing record is durable. -/
theorem c1_commit_wal_before_data (bm : BufferManager) (log : LogSt) (txn : Nat)
    (hll : log.last_lsn ≤ log.latest_lsn)
    (hlsn : ∀ b ∈ bm.buffer_pool, ∀ l, b.lsn = some l → (l : Int) ≤ log.latest_lsn) :
    covered (commitTrace bm log txn) ∧
    ∃ pre lsn, commitTrace bm log txn =
      pre ++ [Event.appendCommitRec txn lsn, Event.logFlush lsn] := by
  obtain ⟨hlat, hlast, hcov⟩ := flushAllGo_spec txn bm.buffer_pool log hll hlsn
  have hcond : (flushAllGo txn log bm.buffer_pool).2.1.last_lsn ≤
      (flushAllGo txn log bm.buffer_pool).2.1.latest_lsn + 1 := by
    rw [hlat]
    omega
  have htr : commitTrace bm log txn =
      (flushAllGo txn log bm.buffer_pool).2.2 ++
        [Event.appendCommitRec txn ((flushAllGo txn log bm.buffer_pool).2.1.latest_lsn + 1),
         Event.logFlush ((flushAllGo txn log bm.buffer_pool).2.1.latest_lsn + 1)] := by
    unfold commitTrace RecoveryManager.commit BufferManager.flush_all_buffers
    dsimp only
    unfold LogSt.flushLog
    rw [if_pos hcond]
    simp
  constructor
  · rw [htr]
    refine covered_append hcov (covered_no_writes ?_)
    intro blk l hmem
    simp at hmem
  · exact ⟨(flushAllGo txn log bm.buffer_pool).2.2,
      (flushAllGo txn log bm.buffer_pool).2.1.latest_lsn + 1, htr⟩

/-- Pool for the C1 witness: one buffer dirtied by transaction 1 at LSN 1
plus one clean buffer. -/
def c1pool : List Buffer :=
  [{ block_id := some { file_name := "f", block_num := 0 },
     pins := 1, txn := some 1, lsn := some 1 },
   Buffer.new]

/-- Buffer manager for the C1 witness. -/
def c1bm : BufferManager := { buffer_pool := c1pool, buff_n_available := 1 }

/-- Log state for the C1 witness: one appended, not yet flushed record. -/
def c1log : LogSt := { latest_lsn := 1, last_lsn := 0 }

/-- The C1 witness hypotheses hold at the concrete state. -/
lemma c1_hlsn : ∀ b ∈ c1bm.buffer_pool, ∀ l, b.lsn = some l →
    (l : Int) ≤ c1log.latest_lsn := by
  intro b hb l hl
  simp [c1bm, c1pool] at hb
  rcases hb with rfl | rfl
  · simp at hl
    subst hl
    decide
  · simp [Buffer.new] at hl

/-- Witness for C1: at the concrete state the hypotheses hold and the
commit trace is covered and ends with the commit record's append followed
by its covering log flush. -/
theorem c1_commit_wal_before_data_witness :
    (c1log.last_lsn ≤ c1log.latest_lsn ∧
     ∀ b ∈ c1bm.buffer_pool, ∀ l, b.lsn = some l → (l : Int) ≤ c1log.latest_lsn) ∧
    (covered (commitTrace c1bm c1log 1) ∧
     ∃ pre lsn, commitTrace c1bm c1log 1 =
       pre ++ [Event.appendCommitRec 1 lsn, Event.logFlush lsn]) :=
  ⟨⟨by decide, c1_hlsn⟩,
   c1_commit_wal_before_data c1bm c1log 1 (by decide) c1_hlsn⟩

/-- C7: the spec says every accessor bounds-checks against `block_size`,
the getters return a not-found result rather than reading out of bounds,
no accessor panics, and for every in-range offset `get_int` returns the
4-byte big-endian integer stored there.  The code violates this:
`Page::get_int` slices `byte_buffer[offset..4]` (the upper bound is the
constant 4, not `offset + 4`), so at the in-range offset 4 of a 16-byte
page the conversion to `[u8; 4]` receives an empty slice and panics, while
the same read at offset 0 succeeds. -/
theorem c7_get_int_in_range_panics :
    4 + 4 ≤ page16.block_size ∧
    page16.get_int 4 = PageRes.panicked ∧
    page16.get_int 0 = PageRes.val 0 := by decide

end SimpleDB
